import Mathlib

/-!
Shallow embedding of the streaming transcript assembler of the claude-ui
demo application.

The embedded code is:
* the `/api/chat` Express handler of `claude-ui-backend/server.js`
  (src/unnamed/part_002, lines 832-1099).  The file registers a second
  handler on the same route at line 1642, but Express dispatches a request
  to the first matching handler and the first never calls `next()`, so the
  first registration is the operative one and is the one embedded here.
* the `readJsonlFile` helper and the `/api/conversations` listing handler
  (src/unnamed/part_002, lines 209-325).
* the client-side stream reader of `app/page.tsx` (lines 405-515), which
  accumulates the frames written by `/api/chat` into ordered content
  blocks; it defines the live transcript a client observes.

Machine-level conventions of the embedding:
* A wire frame (one `data: {...}` SSE record) is a list of
  field-name/value pairs mirroring the exact JS object literal that is
  `JSON.stringify`-ed, in field order.  The initial `':'` keep-alive
  comment written by the handler is not a `data:` frame (the client's
  `line.startsWith('data: ')` test skips it) and is not modelled.
* JSON payloads that the code only copies verbatim and never inspects
  (tool `input`, `total_cost_usd`, `errors`) are abstracted to `String`.
* JS truthiness tests on strings (`sdkMsg.session_id`,
  `firstEntry.sessionId`, `data.content`, `data.error`) are modelled as
  "present and nonempty".
* Log-record timestamps are abstracted to `Nat` (epoch milliseconds):
  the code only copies them verbatim into messages and compares them
  numerically (`new Date(a) - new Date(b)`) for sorting.
-/

namespace ClaudeUI

/-- A `tool_use` content block as delivered by the SDK stream:
`event.content_block` with `type == "tool_use"` carries `id`, `name` and
an `input` payload (kept abstract as a string). -/
structure ToolBlock where
  id : String
  name : String
  input : String
  deriving Repr, DecidableEq

/-- The `content_block` payload of a `content_block_start` stream event:
the handler branches on `event.content_block.type` being `"text"` or
`"tool_use"`; any other type falls through the if/else chain. -/
inductive ContentBlock where
  | text
  | toolUse (tb : ToolBlock)
  | otherBlock
  deriving Repr, DecidableEq

/-- The `delta` payload of a `content_block_delta` stream event: the
handler only acts on `delta.type === 'text_delta'`; other delta kinds
(e.g. `input_json_delta`) fall through. -/
inductive Delta where
  | textDelta (s : String)
  | otherDelta
  deriving Repr, DecidableEq

/-- The nested `sdkMsg.event` of a `stream_event` SDK message. -/
inductive StreamEvent where
  | contentBlockStart (index : Nat) (block : ContentBlock)
  | contentBlockDelta (index : Nat) (delta : Delta)
  | contentBlockStop (index : Nat)
  | otherEvent
  deriving Repr, DecidableEq

/-- A terminal `result` SDK message: the handler copies `is_error`,
`num_turns`, `total_cost_usd`, `duration_ms` and then either `result`
(when `subtype === 'success'`) or `errors`/`subtype`. -/
structure ResultMsg where
  isError : Bool
  numTurns : Nat
  totalCostUsd : String
  durationMs : Nat
  subtype : String
  result : String
  errors : String
  deriving Repr, DecidableEq

/-- One entry of the `content` array of a `type === 'message'` SDK
message (the non-stream path of the handler, lines 965-1012). -/
inductive MsgBlock where
  | textB (text : String)
  | toolB (tb : ToolBlock)
  | otherB
  deriving Repr, DecidableEq

/-- The discriminated body of one SDK message, mirroring the handler's
`sdkMsg.type` dispatch: `message`, `stream_event`, `result`, anything
else (e.g. the `system` init message) is ignored by the dispatch. -/
inductive SdkBody where
  | message (content : List MsgBlock)
  | streamEvent (e : StreamEvent)
  | result (r : ResultMsg)
  | otherMsg
  deriving Repr, DecidableEq

/-- One SDK message: an optional top-level `session_id` plus the body.
`sessionId = some s` with `s ≠ ""` models a truthy `sdkMsg.session_id`. -/
structure SdkMsg where
  sessionId : Option String
  body : SdkBody
  deriving Repr, DecidableEq

/-- A JSON field value appearing in a wire frame.  `raw` marks payloads
the server copies verbatim without inspecting. -/
inductive FieldVal where
  | str (s : String)
  | nat (n : Nat)
  | bool (b : Bool)
  | raw (s : String)
  deriving Repr, DecidableEq

/-- A wire frame: the ordered field list of the JS object literal that
the handler `JSON.stringify`s into one `data:` SSE record. -/
abbrev Frame := List (String × FieldVal)

/-- Frame written at lines 956-960: `{type:'session_id', sessionId, done:false}`. -/
def sessionIdFrame (sid : String) : Frame :=
  [("type", .str "session_id"), ("sessionId", .str sid), ("done", .bool false)]

/-- Frame written at lines 1021-1025: `{type:'text_block_start', blockIndex, done:false}`. -/
def textBlockStartFrame (i : Nat) : Frame :=
  [("type", .str "text_block_start"), ("blockIndex", .nat i), ("done", .bool false)]

/-- Frame written at lines 1044-1049: `{type:'text', content, blockIndex, done:false}`. -/
def textFrame (content : String) (i : Nat) : Frame :=
  [("type", .str "text"), ("content", .str content), ("blockIndex", .nat i), ("done", .bool false)]

/-- Frame written at lines 1056-1060: `{type:'text_block_end', blockIndex, done:false}`. -/
def textBlockEndFrame (i : Nat) : Frame :=
  [("type", .str "text_block_end"), ("blockIndex", .nat i), ("done", .bool false)]

/-- Frame written at lines 1029-1035 (and 1001-1007 on the message path):
`{type:'tool_use', tool, toolUseId, blockIndex, done:false}`.  Note that
the upstream `content_block.input` payload is not among the fields. -/
def toolUseFrame (name id : String) (i : Nat) : Frame :=
  [("type", .str "tool_use"), ("tool", .str name), ("toolUseId", .str id),
   ("blockIndex", .nat i), ("done", .bool false)]

/-- Terminal frame built at lines 1068-1084: `resultInfo` starts as
`{type:'result', done:true, isError, numTurns, totalCostUsd, durationMs}`
and gains `result` on success, `errors`/`subtype` otherwise. -/
def resultFrame (r : ResultMsg) : Frame :=
  [("type", .str "result"), ("done", .bool true), ("isError", .bool r.isError),
   ("numTurns", .nat r.numTurns), ("totalCostUsd", .raw r.totalCostUsd),
   ("durationMs", .nat r.durationMs)]
  ++ (if r.subtype = "success" then [("result", .str r.result)]
      else [("errors", .raw r.errors), ("subtype", .str r.subtype)])

/-- Frame written by the catch clause at lines 1092-1096:
`{type:'error', error: message, done:true}`. -/
def errorFrame (msg : String) : Frame :=
  [("type", .str "error"), ("error", .str msg), ("done", .bool true)]

/-- The handler's mutable locals (lines 937-940): `fullResponse`,
`currentSessionId`, `currentTextBlock`, `textBlockIndex`. -/
structure ChatState where
  fullResponse : String
  currentSessionId : Option String
  currentTextBlock : String
  textBlockIndex : Nat
  deriving Repr, DecidableEq

/-- Initial values of the handler's locals: `''`, `null`, `''`, `0`. -/
def chatState0 : ChatState :=
  { fullResponse := "", currentSessionId := none, currentTextBlock := "", textBlockIndex := 0 }

/-- Lines 951-962: `if (sdkMsg.session_id && !currentSessionId)` capture
the session id and write the `session_id` frame.  `currentSessionId` is
only ever set to a truthy string, so `!currentSessionId` is `isNone`. -/
def sessionCapture (st : ChatState) (m : SdkMsg) : ChatState × List Frame :=
  match m.sessionId with
  | some sid =>
      if sid ≠ "" ∧ st.currentSessionId = none then
        ({ st with currentSessionId := some sid }, [sessionIdFrame sid])
      else (st, [])
  | none => (st, [])

/-- Lines 974-1009 (message path): frames written for content block `b`
at array position `i` of a `type === 'message'` SDK message. -/
def msgBlockFrames (i : Nat) (b : MsgBlock) : List Frame :=
  match b with
  | .textB t => [textBlockStartFrame i, textFrame t i, textBlockEndFrame i]
  | .toolB tb => [toolUseFrame tb.name tb.id i]
  | .otherB => []

/-- Text accumulated into `fullResponse` by the message path (line 998). -/
def msgBlockText (b : MsgBlock) : String :=
  match b with
  | .textB t => t
  | _ => ""

/-- Lines 1018-1063 (stream_event path): state update for one nested
stream event. -/
def streamEventState (st : ChatState) (e : StreamEvent) : ChatState :=
  match e with
  | .contentBlockStart i .text => { st with textBlockIndex := i }
  | .contentBlockStart _ (.toolUse _) => st
  | .contentBlockStart _ .otherBlock => st
  | .contentBlockDelta _ (.textDelta s) =>
      { st with currentTextBlock := st.currentTextBlock ++ s,
                fullResponse := st.fullResponse ++ s }
  | .contentBlockDelta _ .otherDelta => st
  | .contentBlockStop _ => { st with currentTextBlock := "" }
  | .otherEvent => st

/-- Lines 1018-1063 (stream_event path): frames written for one nested
stream event.  Text deltas are forwarded unconditionally (there is no
per-slot open/closed bookkeeping), non-`text_delta` deltas write nothing,
and `content_block_stop` always writes a `text_block_end` frame for the
event's index, whatever kind of block it closes. -/
def streamEventFrames (e : StreamEvent) : List Frame :=
  match e with
  | .contentBlockStart i .text => [textBlockStartFrame i]
  | .contentBlockStart i (.toolUse tb) => [toolUseFrame tb.name tb.id i]
  | .contentBlockStart _ .otherBlock => []
  | .contentBlockDelta i (.textDelta s) => [textFrame s i]
  | .contentBlockDelta _ .otherDelta => []
  | .contentBlockStop i => [textBlockEndFrame i]
  | .otherEvent => []

/-- One iteration of the `for await` loop (lines 946-1087) on one SDK
message: the session capture runs first, then the body dispatch. -/
def chatStep (st : ChatState) (m : SdkMsg) : ChatState × List Frame :=
  let (st1, sf) := sessionCapture st m
  match m.body with
  | .message content =>
      ({ st1 with fullResponse :=
            st1.fullResponse ++ String.join (content.map msgBlockText) },
       sf ++ (content.enum.map (fun p => msgBlockFrames p.1 p.2)).flatten)
  | .streamEvent e => (streamEventState st1 e, sf ++ streamEventFrames e)
  | .result r => (st1, sf ++ [resultFrame r])
  | .otherMsg => (st1, sf)

/-- The `for await` loop: frames written for a message sequence, breaking
after the first `result` message (line 1085's `break`). -/
def chatRun (st : ChatState) : List SdkMsg → List Frame
  | [] => []
  | m :: rest =>
      let s := chatStep st m
      match m.body with
      | .result _ => s.2
      | _ => s.2 ++ chatRun s.1 rest

/-- Frames the `/api/chat` handler writes for an upstream SDK message
sequence, starting from the initial locals. -/
def chatFrames (ms : List SdkMsg) : List Frame :=
  chatRun chatState0 ms

/-! ## Client-side stream reader (app/page.tsx, lines 405-515)

The frontend reads the SSE frames and accumulates `contentBlocks`, the
live transcript a client ends up with.  A streamed tool block is pushed
as `{type:'tool', tool, toolUseId}` (line 475) - with no input payload. -/

/-- One client-side content block as built by the reader: a text block
`{type:'text', content}` or a tool block `{type:'tool', tool, toolUseId}`. -/
inductive CB where
  | textCB (content : String)
  | toolCB (tool : String) (toolUseId : String)
  deriving Repr, DecidableEq

/-- The reader's locals (lines 407-410): `fullContent`, `contentBlocks`,
`currentTextContent`, `currentBlockIndex` (initially `-1`). -/
structure ClientState where
  fullContent : String
  contentBlocks : List CB
  currentTextContent : String
  currentBlockIndex : Int
  deriving Repr, DecidableEq

/-- Initial reader locals. -/
def clientState0 : ClientState :=
  { fullContent := "", contentBlocks := [], currentTextContent := "", currentBlockIndex := -1 }

/-- String value of a frame field, `""` when absent or not a string. -/
def fieldStr (f : Frame) (k : String) : String :=
  match f.lookup k with
  | some (.str s) => s
  | _ => ""

/-- Integer value of a frame field, `-1` when absent or not a number. -/
def fieldNum (f : Frame) (k : String) : Int :=
  match f.lookup k with
  | some (.nat n) => (n : Int)
  | _ => -1

/-- Truthiness of `data.error` (line 433): the field is present and,
being a string in every frame the server writes, nonempty. -/
def frameErrorTruthy (f : Frame) : Bool :=
  match f.lookup "error" with
  | some (.str s) => s ≠ ""
  | some _ => true
  | none => false

/-- The reader's terminal test (line 488):
`data.type === 'result' || data.done`. -/
def frameTerminal (f : Frame) : Bool :=
  f.lookup "type" = some (.str "result") ∨ f.lookup "done" = some (.bool true)

/-- The sequential `if` chain of the reader (lines 439-486) applied to
one frame: `session_id` matches no accumulation branch; `text_block_start`
resets the text accumulator; `text` appends when `data.content` is
truthy; `text_block_end` flushes a nonempty accumulator;
`tool_use` flushes then pushes the tool block. -/
def clientStep (st : ClientState) (f : Frame) : ClientState :=
  let ty := fieldStr f "type"
  let st :=
    if ty = "text_block_start" then
      { st with currentBlockIndex := fieldNum f "blockIndex", currentTextContent := "" }
    else st
  let st :=
    if ty = "text" ∧ fieldStr f "content" ≠ "" then
      { st with currentTextContent := st.currentTextContent ++ fieldStr f "content",
                fullContent := st.fullContent ++ fieldStr f "content" }
    else st
  let st :=
    if ty = "text_block_end" then
      if st.currentTextContent ≠ "" then
        { st with contentBlocks := st.contentBlocks ++ [.textCB st.currentTextContent],
                  currentTextContent := "" }
      else st
    else st
  let st :=
    if ty = "tool_use" then
      let st :=
        if st.currentTextContent ≠ "" then
          { st with contentBlocks := st.contentBlocks ++ [.textCB st.currentTextContent],
                    currentTextContent := "" }
        else st
      { st with contentBlocks := st.contentBlocks ++ [.toolCB (fieldStr f "tool") (fieldStr f "toolUseId")],
                fullContent := st.fullContent ++ "\n\n[Using " ++ fieldStr f "tool" ++ "]\n\n" }
    else st
  st

/-- The reader loop over the received frames: `data.error` breaks before
any accumulation (line 435), the terminal test breaks after it (line 510). -/
def clientRun (st : ClientState) : List Frame → ClientState
  | [] => st
  | f :: rest =>
      if frameErrorTruthy f then st
      else
        let st1 := clientStep st f
        if frameTerminal f then st1 else clientRun st1 rest

/-- The live transcript of one turn: the content blocks the client
reader accumulates from the frames the `/api/chat` handler writes. -/
def liveTranscript (ms : List SdkMsg) : List CB :=
  (clientRun clientState0 (chatFrames ms)).contentBlocks

/-! ## Historical reconstruction (server.js lines 209-325)

`readJsonlFile` parses one per-session JSONL log; the
`/api/conversations` handler lists, filters and sorts the parsed files. -/

/-- One entry of a log record's `message.content` array:
`{type:'text', text}`, `{type:'tool_use', id, name, input}`, or any
other shape (mapped to `null` and filtered out at line 238-250). -/
inductive LogContentBlock where
  | textEntry (text : String)
  | toolEntry (id : String) (name : String) (input : String)
  | otherEntry
  deriving Repr, DecidableEq

/-- The `message.content` field of a log record: an array of blocks, a
plain string, or anything else (absent, object, ...). -/
inductive ContentField where
  | arr (blocks : List LogContentBlock)
  | strContent (s : String)
  | noContent
  deriving Repr, DecidableEq

/-- One parsed JSONL log record, restricted to the fields the code
reads: `type`, `uuid`, `timestamp` (abstracted to epoch milliseconds),
optional `sessionId`, and `message.content`. -/
structure LogEntry where
  type : String
  uuid : String
  timestamp : Nat
  sessionId : Option String
  content : ContentField
  deriving Repr, DecidableEq

/-- One physical line of a JSONL file, as the line handler of
`readJsonlFile` classifies it: whitespace-only (line 223), not valid
JSON (`JSON.parse` throws, caught at line 269), or parsed to a record. -/
inductive Line where
  | blank
  | malformed
  | parsed (e : LogEntry)
  deriving Repr, DecidableEq

/-- One content block of a reconstructed message, as pushed by
`readJsonlFile` (lines 238-250): `{type:'text', content}` or
`{type:'tool', tool: name, toolUseId: id, input}`. -/
inductive HistCB where
  | textCB (content : String)
  | toolCB (tool : String) (toolUseId : String) (input : String)
  deriving Repr, DecidableEq

/-- Lines 238-250: `entry.message.content.map(...)` building a content
block (or `null`, removed by `.filter(Boolean)`). -/
def blockToHistCB : LogContentBlock → Option HistCB
  | .textEntry t => some (.textCB t)
  | .toolEntry id name input => some (.toolCB name id input)
  | .otherEntry => none

/-- Lines 252-259: the backwards-compatibility plain text - the `text`
fields of the content array joined with a newline, or the content itself
when it is a plain string, or `''`. -/
def contentTextOf : ContentField → String
  | .arr blocks =>
      String.intercalate "\n"
        (blocks.filterMap (fun b => match b with | .textEntry t => some t | _ => none))
  | .strContent s => s
  | .noContent => ""

/-- A reconstructed message as pushed at lines 261-267; `contentBlocks`
is `none` when the built list is empty (`undefined` in the JS object). -/
structure Message where
  id : String
  role : String
  content : String
  contentBlocks : Option (List HistCB)
  timestamp : Nat
  deriving Repr, DecidableEq

/-- Lines 231-268: the message a single parsed record contributes, if
its `type` is `'user'` or `'assistant'`. -/
def entryToMessage (e : LogEntry) : Option Message :=
  if e.type = "user" ∨ e.type = "assistant" then
    let cbs := match e.content with
      | .arr blocks => blocks.filterMap blockToHistCB
      | _ => []
    some { id := e.uuid,
           role := if e.type = "user" then "user" else "assistant",
           content := contentTextOf e.content,
           contentBlocks := if cbs.length > 0 then some cbs else none,
           timestamp := e.timestamp }
  else none

/-- The message a single line contributes: blank and malformed lines are
skipped, parsed lines go through `entryToMessage`. -/
def lineMessage : Line → Option Message
  | .parsed e => entryToMessage e
  | _ => none

/-- The accumulator of `readJsonlFile`'s line handler: `firstEntry`,
`messages`, `lineNum`. -/
structure JsonlAcc where
  firstEntry : Option LogEntry
  messages : List Message
  lineNum : Nat
  deriving Repr, DecidableEq

/-- Lines 221-272, one `line` event: `lineNum++` runs first; a
whitespace-only line is then skipped; `JSON.parse` failure skips the
line; on success the first line's entry is captured and a
`user`/`assistant` record is appended to `messages`. -/
def jsonlStep (acc : JsonlAcc) (l : Line) : JsonlAcc :=
  let acc := { acc with lineNum := acc.lineNum + 1 }
  match l with
  | .blank => acc
  | .malformed => acc
  | .parsed e =>
      let acc := if acc.lineNum = 1 then { acc with firstEntry := some e } else acc
      match entryToMessage e with
      | some msg => { acc with messages := acc.messages ++ [msg] }
      | none => acc

/-- `readJsonlFile` on the classified lines of one file. -/
def readJsonlFile (lines : List Line) : JsonlAcc :=
  lines.foldl jsonlStep { firstEntry := none, messages := [], lineNum := 0 }

/-- One `.jsonl` file of the project folder: its basename (used as the
conversation id) and its classified lines. -/
structure JsonlFile where
  name : String
  lines : List Line
  deriving Repr, DecidableEq

/-- A conversation list entry as pushed at lines 305-311.  The
locale-formatted `title` string is abstracted to the decimal rendering
of the timestamp (the code never inspects it). -/
structure Conversation where
  id : String
  title : String
  timestamp : Nat
  messages : List Message
  sessionId : String
  deriving Repr, DecidableEq

/-- Lines 289-313: the conversation one file contributes - only when
the first parsed record exists and carries a truthy `sessionId`. -/
def conversationOfFile (f : JsonlFile) : Option Conversation :=
  let r := readJsonlFile f.lines
  match r.firstEntry with
  | some e =>
      match e.sessionId with
      | some sid =>
          if sid ≠ "" then
            some { id := f.name, title := toString e.timestamp, timestamp := e.timestamp,
                   messages := r.messages, sessionId := sid }
          else none
      | none => none
  | none => none

/-- The descending-timestamp order of the comparator at line 316
(`(a, b) => b.timestamp - a.timestamp`). -/
def convGE (a b : Conversation) : Prop := b.timestamp ≤ a.timestamp

instance : DecidableRel convGE := fun a b => Nat.decLe b.timestamp a.timestamp

instance : IsTotal Conversation convGE :=
  ⟨fun a b => Nat.le_total b.timestamp a.timestamp⟩

instance : IsTrans Conversation convGE :=
  ⟨fun _ _ _ h1 h2 => Nat.le_trans h2 h1⟩

/-- Lines 287-316: gather the conversation of each readable file in
directory order, then sort newest-first with the stable
`Array.prototype.sort` (modelled by the stable insertion sort). -/
def conversationsOf (files : List JsonlFile) : List Conversation :=
  (files.filterMap conversationOfFile).insertionSort convGE

/-! ## Valid upstream sequences and the persisted log of a turn

A valid upstream turn is a sequence of properly bracketed content
blocks: each block opens once at its index, streams its deltas (text
deltas for text blocks, non-text deltas such as `input_json_delta` for
tool blocks) and closes once, followed by a terminal `result`.  The SDK
message carrying the session id arrives first. -/

/-- Wrap a nested stream event into a `stream_event` SDK message. -/
def mkStreamMsg (e : StreamEvent) : SdkMsg :=
  { sessionId := none, body := .streamEvent e }

/-- Abstract description of one content block of a valid turn: a text
block given by its delta fragments, or a tool block given by its payload
and the number of (ignored) non-text delta events it streams. -/
inductive BlockDesc where
  | textBlock (deltas : List String)
  | toolBlock (tb : ToolBlock) (nIgnored : Nat)
  deriving Repr, DecidableEq

/-- The stream events of one block at slot index `i`: open, deltas,
close. -/
def seqOfBlock (i : Nat) (b : BlockDesc) : List StreamEvent :=
  match b with
  | .textBlock ds =>
      .contentBlockStart i .text ::
        (ds.map (fun s => .contentBlockDelta i (.textDelta s)) ++ [.contentBlockStop i])
  | .toolBlock tb n =>
      .contentBlockStart i (.toolUse tb) ::
        (List.replicate n (.contentBlockDelta i .otherDelta) ++ [.contentBlockStop i])

/-- The SDK message sequence of one valid turn: a first message carrying
the session id, the blocks in order at consecutive slot indices, and the
terminal result. -/
def turnEvents (sid : String) (blocks : List BlockDesc) (r : ResultMsg) : List SdkMsg :=
  { sessionId := some sid, body := .otherMsg } ::
    (((blocks.enum.map (fun p => seqOfBlock p.1 p.2)).flatten.map mkStreamMsg) ++
      [{ sessionId := none, body := .result r }])

/-- Concatenation of a list of text fragments. -/
def joinAll : List String → String
  | [] => ""
  | s :: rest => s ++ joinAll rest

/-- Modelled from the spec: the upstream service's durable logging (not
part of this repository - `server.js` only reads the log back) persists
each completed content block of the assistant turn as one entry of the
assistant record's `message.content` array: a text block as
`{type:"text", text}` with the concatenation of its deltas, a tool block
as `{type:"tool_use", id, name, input}` with its payload verbatim. -/
def persistBlock : BlockDesc → LogContentBlock
  | .textBlock ds => .textEntry (joinAll ds)
  | .toolBlock tb _ => .toolEntry tb.id tb.name tb.input

/-- Modelled from the spec: the persisted per-session JSONL log of one
turn - a first record carrying `sessionId` and `timestamp` (the user
record of the turn), then the assistant record whose `message.content`
array holds the turn's blocks in order. -/
def persistedLog (sid : String) (ts : Nat) (u1 u2 userText : String)
    (blocks : List BlockDesc) : List Line :=
  [.parsed { type := "user", uuid := u1, timestamp := ts, sessionId := some sid,
             content := .strContent userText },
   .parsed { type := "assistant", uuid := u2, timestamp := ts, sessionId := some sid,
             content := .arr (blocks.map persistBlock) }]

/-- The transcript the historical reconstructor derives for the turn: the
content blocks of the (last) assistant message of the parsed log. -/
def histTranscriptOf (lines : List Line) : List HistCB :=
  match (readJsonlFile lines).messages.getLast? with
  | some m => m.contentBlocks.getD []
  | none => []

/-- The JSON field list of a client-side content block (`{type:'text',
content}` or `{type:'tool', tool, toolUseId}` - page.tsx lines 461/475). -/
def cbFields : CB → List (String × FieldVal)
  | .textCB c => [("type", .str "text"), ("content", .str c)]
  | .toolCB t id => [("type", .str "tool"), ("tool", .str t), ("toolUseId", .str id)]

/-- The JSON field list of a reconstructed content block
(`{type:'text', content}` or `{type:'tool', tool, toolUseId, input}` -
server.js lines 240-247). -/
def histCBFields : HistCB → List (String × FieldVal)
  | .textCB c => [("type", .str "text"), ("content", .str c)]
  | .toolCB t id inp =>
      [("type", .str "tool"), ("tool", .str t), ("toolUseId", .str id), ("input", .raw inp)]

/-- Projection dropping the `input` field of a reconstructed tool block. -/
def forgetInput : HistCB → CB
  | .textCB c => .textCB c
  | .toolCB t id _ => .toolCB t id

/-- A text block whose accumulated content is empty is dropped by the
client reader (`if (currentTextContent)`), so round-trip statements
require text blocks with nonempty total content. -/
def blockTextOk : BlockDesc → Bool
  | .textBlock ds => joinAll ds ≠ ""
  | .toolBlock _ _ => true

/-! ## Frame classification helpers for the sequencing claims -/

/-- A `tool_use` (segment-opened, tool kind) frame for slot `i`. -/
def isToolOpenAt (i : Nat) (f : Frame) : Bool :=
  decide (f.lookup "type" = some (.str "tool_use") ∧ f.lookup "blockIndex" = some (.nat i))

/-- A `text_block_end` (segment-closed) frame for slot `i`. -/
def isCloseAt (i : Nat) (f : Frame) : Bool :=
  decide (f.lookup "type" = some (.str "text_block_end") ∧ f.lookup "blockIndex" = some (.nat i))

/-- A `text` (segment-appended) frame for slot `i`. -/
def isAppendAt (i : Nat) (f : Frame) : Bool :=
  decide (f.lookup "type" = some (.str "text") ∧ f.lookup "blockIndex" = some (.nat i))

/-- A frame with `done: true` (a terminal frame of the push protocol). -/
def isTerminalFrame (f : Frame) : Bool :=
  decide (f.lookup "done" = some (.bool true))

/-- Every `tool_use` frame for slot `i` in the list is followed by
exactly one `text_block_end` frame for slot `i`, with no `text` frame
for slot `i` before that closing frame. -/
def sealedAt (i : Nat) : List Frame → Bool
  | [] => true
  | f :: rest =>
      ((!isToolOpenAt i f) ||
        ((rest.countP (isCloseAt i) = 1 : Bool) &&
         ((rest.takeWhile (fun g => !isCloseAt i g)).countP (isAppendAt i) = 0 : Bool)))
      && sealedAt i rest

/-! ## Concrete inputs used by counterexamples and witnesses -/

/-- A concrete tool invocation payload. -/
def tb0 : ToolBlock := { id := "tid", name := "Read", input := "pathA" }

/-- A concrete successful result message. -/
def r0 : ResultMsg :=
  { isError := false, numTurns := 1, totalCostUsd := "cost", durationMs := 5,
    subtype := "success", result := "ok", errors := "" }

/-- Orphan text delta with no preceding open (the C2 scenario). -/
def es2cex : List SdkMsg := [mkStreamMsg (.contentBlockDelta 0 (.textDelta "x"))]

/-- Truncated sequence: a text block opens and streams one delta, then
the upstream connection drops (the C3 scenario). -/
def es3cex : List SdkMsg :=
  [mkStreamMsg (.contentBlockStart 0 .text), mkStreamMsg (.contentBlockDelta 0 (.textDelta "partial"))]

/-- A single tool block open event (the C4 scenario). -/
def es4cex : List SdkMsg := [mkStreamMsg (.contentBlockStart 0 (.toolUse tb0))]

/-- A tool block open followed by a stray text delta for the same slot,
then the stop (the C6 scenario). -/
def es6cex : List SdkMsg :=
  [mkStreamMsg (.contentBlockStart 0 (.toolUse tb0)),
   mkStreamMsg (.contentBlockDelta 0 (.textDelta "x")),
   mkStreamMsg (.contentBlockStop 0)]

/-- A full valid turn whose text block streams `"a"` then `"b"` (the C9
scenario cancels between the two deltas, i.e. after the third message). -/
def es9full : List SdkMsg :=
  { sessionId := some "sess1", body := .otherMsg } ::
    [mkStreamMsg (.contentBlockStart 0 .text),
     mkStreamMsg (.contentBlockDelta 0 (.textDelta "a")),
     mkStreamMsg (.contentBlockDelta 0 (.textDelta "b")),
     mkStreamMsg (.contentBlockStop 0),
     { sessionId := none, body := .result r0 }]

/-- The single-tool turn of the C1 counterexample. -/
def blocks1 : List BlockDesc := [.toolBlock tb0 0]

/-- The persisted log of the C1 counterexample turn. -/
def log1 : List Line := persistedLog "sess1" 10 "u1" "u2" "hi" blocks1

/-- A two-block turn (text then tool) used by witnesses. -/
def blocksW : List BlockDesc := [.textBlock ["Hel", "lo"], .toolBlock tb0 2]

/-- Whether an SDK message is the terminal `result` message. -/
def isResultMsg (m : SdkMsg) : Bool :=
  match m.body with
  | .result _ => true
  | _ => false

/-- The `session_id` frame the handler writes for the first message when
its `session_id` is truthy. -/
def sessFrames (sid : String) : List Frame :=
  if sid ≠ "" then [sessionIdFrame sid] else []

/-- All frames the handler writes for one block of a valid turn. -/
def blockFrames (i : Nat) (b : BlockDesc) : List Frame :=
  ((seqOfBlock i b).map streamEventFrames).flatten

/-- The client content block one block of a valid turn ends up as: a
text block with the concatenated deltas (dropped when empty), or a tool
block carrying name and id only. -/
def liveCBOf : BlockDesc → Option CB
  | .textBlock ds => if joinAll ds ≠ "" then some (.textCB (joinAll ds)) else none
  | .toolBlock tb _ => some (.toolCB tb.name tb.id)

/-- Falsiness of a record's `sessionId` (absent or empty string). -/
def sessionFalsy (e : LogEntry) : Bool :=
  match e.sessionId with
  | none => true
  | some s => s = ""

/-- A first line that makes the `/api/conversations` guard
(`firstEntry && firstEntry.sessionId`) fail: empty, unparsable, or a
record with a falsy `sessionId`. -/
def firstLineExcluded : Line → Bool
  | .blank => true
  | .malformed => true
  | .parsed e => sessionFalsy e

/-- A concrete user log record carrying a session id. -/
def logEntryU : LogEntry :=
  { type := "user", uuid := "u1", timestamp := 1, sessionId := some "sid",
    content := .strContent "hi" }

/-- A concrete assistant text log record (no session id). -/
def logEntryA : LogEntry :=
  { type := "assistant", uuid := "u2", timestamp := 2, sessionId := none,
    content := .arr [.textEntry "t"] }

end ClaudeUI

namespace ClaudeUI

/-! # Theorems -/

/-! ## Frame field facts -/

theorem sessionIdFrame_done (sid : String) :
    (sessionIdFrame sid).lookup "done" = some (.bool false) := rfl

theorem textBlockStartFrame_done (i : Nat) :
    (textBlockStartFrame i).lookup "done" = some (.bool false) := rfl

theorem textFrame_done (s : String) (i : Nat) :
    (textFrame s i).lookup "done" = some (.bool false) := rfl

theorem textBlockEndFrame_done (i : Nat) :
    (textBlockEndFrame i).lookup "done" = some (.bool false) := rfl

theorem toolUseFrame_done (nm id : String) (i : Nat) :
    (toolUseFrame nm id i).lookup "done" = some (.bool false) := rfl

theorem resultFrame_done (r : ResultMsg) :
    (resultFrame r).lookup "done" = some (.bool true) := rfl

theorem resultFrame_type (r : ResultMsg) :
    (resultFrame r).lookup "type" = some (.str "result") := rfl

theorem errorFrame_done (s : String) :
    (errorFrame s).lookup "done" = some (.bool true) := rfl

/-! ## Structure of the handler's output -/

theorem chatRun_cons_stream (st : ChatState) (e : StreamEvent) (rest : List SdkMsg) :
    chatRun st (mkStreamMsg e :: rest)
      = streamEventFrames e ++ chatRun (streamEventState st e) rest := by
  simp [chatRun, chatStep, sessionCapture, mkStreamMsg]

theorem chatRun_cons_result (st : ChatState) (r : ResultMsg) (rest : List SdkMsg) :
    chatRun st ({ sessionId := none, body := .result r } :: rest) = [resultFrame r] := by
  simp [chatRun, chatStep, sessionCapture]

theorem chatRun_stream_append (es : List StreamEvent) (st : ChatState) (tail : List SdkMsg) :
    chatRun st (es.map mkStreamMsg ++ tail)
      = (es.map streamEventFrames).flatten ++ chatRun (es.foldl streamEventState st) tail := by
  induction es generalizing st with
  | nil => simp
  | cons e es ih =>
      simp only [List.map_cons, List.cons_append, chatRun_cons_stream, List.flatten_cons,
        List.foldl_cons, ih, List.append_assoc]

theorem chatRun_take_front (ms : List SdkMsg) (k : Nat) (st : ChatState) :
    chatRun st (ms.take k) <+: chatRun st ms := by
  induction ms generalizing st k with
  | nil => simp
  | cons m rest ih =>
      cases k with
      | zero => exact List.nil_prefix
      | succ k =>
          simp only [List.take_succ_cons]
          show chatRun st (m :: rest.take k) <+: chatRun st (m :: rest)
          cases hb : m.body with
          | result r =>
              simp only [chatRun, hb]
              exact List.prefix_refl _
          | message c =>
              simp only [chatRun, hb]
              exact (List.prefix_append_right_inj _).mpr (ih k _)
          | streamEvent e =>
              simp only [chatRun, hb]
              exact (List.prefix_append_right_inj _).mpr (ih k _)
          | otherMsg =>
              simp only [chatRun, hb]
              exact (List.prefix_append_right_inj _).mpr (ih k _)

/-- Helper: a frame whose `type` field is a string other than
`"result"` is not `result`-typed. -/
theorem type_ne_result {f : Frame} {s : String}
    (h : f.lookup "type" = some (.str s)) (hs : s ≠ "result") :
    f.lookup "type" ≠ some (.str "result") := by
  rw [h]
  intro hc
  injection hc with h2
  injection h2 with h3
  exact hs h3

/-- Frames written by the session-capture branch carry `done:false` and
are not `result`-typed. -/
theorem sessionCapture_frames (st : ChatState) (m : SdkMsg) :
    ∀ f ∈ (sessionCapture st m).2,
      f.lookup "done" = some (.bool false) ∧ f.lookup "type" ≠ some (.str "result") := by
  unfold sessionCapture
  cases m.sessionId with
  | none => simp
  | some sid =>
      by_cases hc : sid ≠ "" ∧ st.currentSessionId = none
      · simp only [if_pos hc]
        intro f hf
        rw [List.mem_singleton] at hf
        subst hf
        exact ⟨rfl, type_ne_result rfl (by decide)⟩
      · simp [if_neg hc]

/-- Frames written for a nested stream event carry `done:false` and are
not `result`-typed. -/
theorem streamEventFrames_nonterminal (e : StreamEvent) :
    ∀ f ∈ streamEventFrames e,
      f.lookup "done" = some (.bool false) ∧ f.lookup "type" ≠ some (.str "result") := by
  intro f hf
  cases e with
  | contentBlockStart i b =>
      cases b with
      | text =>
          rw [streamEventFrames, List.mem_singleton] at hf
          subst hf; exact ⟨rfl, type_ne_result rfl (by decide)⟩
      | toolUse tb =>
          rw [streamEventFrames, List.mem_singleton] at hf
          subst hf; exact ⟨rfl, type_ne_result rfl (by decide)⟩
      | otherBlock => simp [streamEventFrames] at hf
  | contentBlockDelta i d =>
      cases d with
      | textDelta s =>
          rw [streamEventFrames, List.mem_singleton] at hf
          subst hf; exact ⟨rfl, type_ne_result rfl (by decide)⟩
      | otherDelta => simp [streamEventFrames] at hf
  | contentBlockStop i =>
      rw [streamEventFrames, List.mem_singleton] at hf
      subst hf; exact ⟨rfl, type_ne_result rfl (by decide)⟩
  | otherEvent => simp [streamEventFrames] at hf

/-- Frames written for a non-terminal SDK message all carry `done:false`
and are not `result`-typed. -/
theorem chatStep_frames_nonterminal (st : ChatState) (m : SdkMsg)
    (h : isResultMsg m = false) :
    ∀ f ∈ (chatStep st m).2,
      f.lookup "done" = some (.bool false) ∧ f.lookup "type" ≠ some (.str "result") := by
  intro f hf
  cases hb : m.body with
  | result r => simp [isResultMsg, hb] at h
  | otherMsg =>
      simp only [chatStep, hb] at hf
      exact sessionCapture_frames st m f hf
  | streamEvent e =>
      simp only [chatStep, hb, List.mem_append] at hf
      exact hf.elim (sessionCapture_frames st m f) (streamEventFrames_nonterminal e f)
  | message c =>
      simp only [chatStep, hb, List.mem_append] at hf
      rcases hf with hf | hf
      · exact sessionCapture_frames st m f hf
      · simp only [List.mem_flatten, List.mem_map] at hf
        obtain ⟨l, ⟨p, _, hpl⟩, hfl⟩ := hf
        subst hpl
        cases hpb : p.2 with
        | textB t =>
            rw [hpb] at hfl
            rw [msgBlockFrames] at hfl
            simp only [List.mem_cons, List.not_mem_nil, or_false] at hfl
            rcases hfl with h1 | h1 | h1
            · subst h1; exact ⟨rfl, type_ne_result rfl (by decide)⟩
            · subst h1; exact ⟨rfl, type_ne_result rfl (by decide)⟩
            · subst h1; exact ⟨rfl, type_ne_result rfl (by decide)⟩
        | toolB tb =>
            rw [hpb] at hfl
            rw [msgBlockFrames] at hfl
            simp only [List.mem_cons, List.not_mem_nil, or_false] at hfl
            subst hfl; exact ⟨rfl, type_ne_result rfl (by decide)⟩
        | otherB =>
            rw [hpb] at hfl
            rw [msgBlockFrames] at hfl
            simp at hfl

/-- The output of the loop is either all non-terminal frames (no result
arrived) or such frames followed by one final `result` frame. -/
theorem chatRun_shape (ms : List SdkMsg) (st : ChatState) :
    (∀ f ∈ chatRun st ms,
        f.lookup "done" = some (.bool false) ∧ f.lookup "type" ≠ some (.str "result"))
  ∨ (∃ fs r, chatRun st ms = fs ++ [resultFrame r] ∧ ∀ f ∈ fs,
        f.lookup "done" = some (.bool false) ∧ f.lookup "type" ≠ some (.str "result")) := by
  induction ms generalizing st with
  | nil => left; simp [chatRun]
  | cons m rest ih =>
      cases hb : m.body with
      | result r =>
          right
          exact ⟨(sessionCapture st m).2, r, by simp [chatRun, hb, chatStep],
            sessionCapture_frames st m⟩
      | message c =>
          have hstep := chatStep_frames_nonterminal st m (by simp [isResultMsg, hb])
          have hrun : chatRun st (m :: rest)
              = (chatStep st m).2 ++ chatRun (chatStep st m).1 rest := by
            simp [chatRun, hb]
          rcases ih (chatStep st m).1 with hl | ⟨fs, r, heq, hfs⟩
          · left
            intro f hf
            rw [hrun, List.mem_append] at hf
            exact hf.elim (hstep f) (hl f)
          · right
            refine ⟨(chatStep st m).2 ++ fs, r, ?_, ?_⟩
            · rw [hrun, heq, List.append_assoc]
            · intro f hf
              rw [List.mem_append] at hf
              exact hf.elim (hstep f) (hfs f)
      | streamEvent e =>
          have hstep := chatStep_frames_nonterminal st m (by simp [isResultMsg, hb])
          have hrun : chatRun st (m :: rest)
              = (chatStep st m).2 ++ chatRun (chatStep st m).1 rest := by
            simp [chatRun, hb]
          rcases ih (chatStep st m).1 with hl | ⟨fs, r, heq, hfs⟩
          · left
            intro f hf
            rw [hrun, List.mem_append] at hf
            exact hf.elim (hstep f) (hl f)
          · right
            refine ⟨(chatStep st m).2 ++ fs, r, ?_, ?_⟩
            · rw [hrun, heq, List.append_assoc]
            · intro f hf
              rw [List.mem_append] at hf
              exact hf.elim (hstep f) (hfs f)
      | otherMsg =>
          have hstep := chatStep_frames_nonterminal st m (by simp [isResultMsg, hb])
          have hrun : chatRun st (m :: rest)
              = (chatStep st m).2 ++ chatRun (chatStep st m).1 rest := by
            simp [chatRun, hb]
          rcases ih (chatStep st m).1 with hl | ⟨fs, r, heq, hfs⟩
          · left
            intro f hf
            rw [hrun, List.mem_append] at hf
            exact hf.elim (hstep f) (hl f)
          · right
            refine ⟨(chatStep st m).2 ++ fs, r, ?_, ?_⟩
            · rw [hrun, heq, List.append_assoc]
            · intro f hf
              rw [List.mem_append] at hf
              exact hf.elim (hstep f) (hfs f)

/-! ## Structure of the historical reconstruction -/

/-- The line handler appends exactly the message of each line, in line
order: the fold is a `filterMap` on the messages side. -/
theorem jsonl_foldl_messages (lines : List Line) :
    ∀ acc : JsonlAcc,
      (List.foldl jsonlStep acc lines).messages = acc.messages ++ lines.filterMap lineMessage := by
  induction lines with
  | nil => simp
  | cons l rest ih =>
      intro acc
      rw [List.foldl_cons, ih]
      cases l with
      | blank => simp [jsonlStep, lineMessage]
      | malformed => simp [jsonlStep, lineMessage]
      | parsed e =>
          cases hm : entryToMessage e with
          | none =>
              by_cases h1 : acc.lineNum + 1 = 1 <;>
                simp [jsonlStep, lineMessage, hm, h1]
          | some msg =>
              by_cases h1 : acc.lineNum + 1 = 1 <;>
                simp [jsonlStep, lineMessage, hm, h1]

/-- Once past the first line, the fold never touches `firstEntry`. -/
theorem jsonl_foldl_firstEntry_stable (lines : List Line) :
    ∀ acc : JsonlAcc, 1 ≤ acc.lineNum →
      (List.foldl jsonlStep acc lines).firstEntry = acc.firstEntry := by
  induction lines with
  | nil => intro acc _; rfl
  | cons l rest ih =>
      intro acc hacc
      rw [List.foldl_cons]
      have hstep : (jsonlStep acc l).firstEntry = acc.firstEntry ∧ 1 ≤ (jsonlStep acc l).lineNum := by
        cases l with
        | blank => exact ⟨rfl, by simp [jsonlStep]⟩
        | malformed => exact ⟨rfl, by simp [jsonlStep]⟩
        | parsed e =>
            have h1 : ¬acc.lineNum + 1 = 1 := by omega
            cases hm : entryToMessage e <;> simp [jsonlStep, h1, hm]
      rw [ih _ hstep.2, hstep.1]

/-- The captured `firstEntry` is exactly the parse of the first physical
line: a blank or malformed first line leaves it `null` for good. -/
theorem readJsonl_firstEntry (lines : List Line) :
    (readJsonlFile lines).firstEntry
      = (match lines.head? with | some (.parsed e) => some e | _ => none) := by
  cases lines with
  | nil => rfl
  | cons l rest =>
      show (List.foldl jsonlStep (jsonlStep { firstEntry := none, messages := [], lineNum := 0 } l)
        rest).firstEntry = _
      cases l with
      | blank =>
          rw [jsonl_foldl_firstEntry_stable rest _ (by simp [jsonlStep])]
          simp [jsonlStep]
      | malformed =>
          rw [jsonl_foldl_firstEntry_stable rest _ (by simp [jsonlStep])]
          simp [jsonlStep]
      | parsed e =>
          have heq : (jsonlStep { firstEntry := none, messages := [], lineNum := 0 } (.parsed e))
              = { firstEntry := some e,
                  messages := (entryToMessage e).toList, lineNum := 1 } := by
            cases hm : entryToMessage e <;> simp [jsonlStep, hm]
          rw [heq, jsonl_foldl_firstEntry_stable rest _ (by simp)]
          simp

/-- The reconstructed message list of a file is the in-order
contribution of each line. -/
theorem readJsonl_messages (lines : List Line) :
    (readJsonlFile lines).messages = lines.filterMap lineMessage := by
  simpa [readJsonlFile] using
    jsonl_foldl_messages lines { firstEntry := none, messages := [], lineNum := 0 }

/-- Helper: a frame whose `done` field is `false` is not terminal. -/
theorem isTerminalFrame_eq_false {f : Frame}
    (h : f.lookup "done" = some (.bool false)) : isTerminalFrame f = false := by
  simp only [isTerminalFrame, h]
  decide

/-- When no message of the sequence is a `result`, every frame written
carries `done:false`. -/
theorem chatRun_no_result (ms : List SdkMsg) (h : ∀ m ∈ ms, isResultMsg m = false)
    (st : ChatState) :
    ∀ f ∈ chatRun st ms, f.lookup "done" = some (.bool false) := by
  induction ms generalizing st with
  | nil => simp [chatRun]
  | cons m rest ih =>
      intro f hf
      have hm : isResultMsg m = false := h m (List.mem_cons_self m rest)
      cases hb : m.body with
      | result r => simp [isResultMsg, hb] at hm
      | message c =>
          rw [show chatRun st (m :: rest)
              = (chatStep st m).2 ++ chatRun (chatStep st m).1 rest by simp [chatRun, hb],
            List.mem_append] at hf
          exact hf.elim (fun hf1 => (chatStep_frames_nonterminal st m hm f hf1).1)
            (fun hf2 => ih (fun x hx => h x (List.mem_cons_of_mem m hx)) _ f hf2)
      | streamEvent e =>
          rw [show chatRun st (m :: rest)
              = (chatStep st m).2 ++ chatRun (chatStep st m).1 rest by simp [chatRun, hb],
            List.mem_append] at hf
          exact hf.elim (fun hf1 => (chatStep_frames_nonterminal st m hm f hf1).1)
            (fun hf2 => ih (fun x hx => h x (List.mem_cons_of_mem m hx)) _ f hf2)
      | otherMsg =>
          rw [show chatRun st (m :: rest)
              = (chatStep st m).2 ++ chatRun (chatStep st m).1 rest by simp [chatRun, hb],
            List.mem_append] at hf
          exact hf.elim (fun hf1 => (chatStep_frames_nonterminal st m hm f hf1).1)
            (fun hf2 => ih (fun x hx => h x (List.mem_cons_of_mem m hx)) _ f hf2)

/-! ## Field projections of the frames, as the client reads them -/

theorem fieldStr_type_session (sid : String) :
    fieldStr (sessionIdFrame sid) "type" = "session_id" := rfl

theorem fieldStr_type_start (i : Nat) :
    fieldStr (textBlockStartFrame i) "type" = "text_block_start" := rfl

theorem fieldStr_type_text (s : String) (i : Nat) :
    fieldStr (textFrame s i) "type" = "text" := rfl

theorem fieldStr_content_text (s : String) (i : Nat) :
    fieldStr (textFrame s i) "content" = s := rfl

theorem fieldStr_type_end (i : Nat) :
    fieldStr (textBlockEndFrame i) "type" = "text_block_end" := rfl

theorem fieldStr_type_tool (nm id : String) (i : Nat) :
    fieldStr (toolUseFrame nm id i) "type" = "tool_use" := rfl

theorem fieldStr_tool_name (nm id : String) (i : Nat) :
    fieldStr (toolUseFrame nm id i) "tool" = nm := rfl

theorem fieldStr_tool_id (nm id : String) (i : Nat) :
    fieldStr (toolUseFrame nm id i) "toolUseId" = id := rfl

/-! ## The handler's frames for one block of a valid turn -/

theorem flatten_map_singleton {α β : Type} (l : List α) (g : α → β) :
    (l.map (fun x => [g x])).flatten = l.map g := by
  induction l with
  | nil => rfl
  | cons x l ih => simp [ih]

theorem blockFrames_text (i : Nat) (ds : List String) :
    blockFrames i (.textBlock ds)
      = textBlockStartFrame i :: (ds.map (fun s => textFrame s i) ++ [textBlockEndFrame i]) := by
  rw [blockFrames, seqOfBlock, List.map_cons, List.flatten_cons, List.map_append,
    List.flatten_append, List.map_map]
  rw [show (streamEventFrames ∘ fun s => StreamEvent.contentBlockDelta i (.textDelta s))
      = (fun s => [textFrame s i]) from rfl]
  rw [flatten_map_singleton ds (fun s => textFrame s i)]
  simp [streamEventFrames]

theorem blockFrames_tool (i : Nat) (tb : ToolBlock) (n : Nat) :
    blockFrames i (.toolBlock tb n) = [toolUseFrame tb.name tb.id i, textBlockEndFrame i] := by
  rw [blockFrames, seqOfBlock]
  simp only [List.map_cons, List.map_append, List.map_replicate, List.flatten_cons,
    List.flatten_append, streamEventFrames]
  induction n with
  | zero => rfl
  | succ n ih => simp only [List.replicate_succ, List.flatten_cons] at ih ⊢; exact ih

/-! ## Client reader behavior on the handler's frames -/

theorem clientStep_session (st : ClientState) (sid : String) :
    clientStep st (sessionIdFrame sid) = st := rfl

theorem clientStep_result (st : ClientState) (r : ResultMsg) :
    clientStep st (resultFrame r) = st := rfl

theorem clientStep_textStart (st : ClientState) (i : Nat) :
    clientStep st (textBlockStartFrame i)
      = { st with currentBlockIndex := (i : Int), currentTextContent := "" } := rfl

theorem clientStep_text (st : ClientState) (s : String) (i : Nat) :
    clientStep st (textFrame s i)
      = { st with currentTextContent := st.currentTextContent ++ s,
                  fullContent := st.fullContent ++ s } := by
  by_cases hs : s = ""
  · subst hs
    simp only [String.append_empty]
    rfl
  · simp only [clientStep, fieldStr_type_text, fieldStr_content_text]
    simp [hs]

theorem clientStep_textEnd (st : ClientState) (i : Nat) :
    clientStep st (textBlockEndFrame i)
      = if st.currentTextContent ≠ "" then
          { st with contentBlocks := st.contentBlocks ++ [.textCB st.currentTextContent],
                    currentTextContent := "" }
        else st := by
  by_cases hc : st.currentTextContent = ""
  · simp only [clientStep, fieldStr_type_end]
    simp [hc]
  · simp only [clientStep, fieldStr_type_end]
    simp [hc]

theorem clientStep_tool (st : ClientState) (nm id : String) (i : Nat)
    (h : st.currentTextContent = "") :
    clientStep st (toolUseFrame nm id i)
      = { st with contentBlocks := st.contentBlocks ++ [.toolCB nm id],
                  fullContent := st.fullContent ++ "\n\n[Using " ++ nm ++ "]\n\n" } := by
  simp only [clientStep, fieldStr_type_tool, fieldStr_tool_name, fieldStr_tool_id]
  simp [h]

theorem frameErrorTruthy_result (r : ResultMsg) :
    frameErrorTruthy (resultFrame r) = false := by
  unfold frameErrorTruthy resultFrame
  by_cases hc : r.subtype = "success"
  · rw [if_pos hc]
    rfl
  · rw [if_neg hc]
    rfl

theorem frameTerminal_result (r : ResultMsg) :
    frameTerminal (resultFrame r) = true := rfl

/-- Every frame of a block of a valid turn is neither error-truthy nor
terminal for the client reader. -/
theorem blockFrames_plain (i : Nat) (b : BlockDesc) :
    ∀ f ∈ blockFrames i b, frameErrorTruthy f = false ∧ frameTerminal f = false := by
  intro f hf
  cases b with
  | textBlock ds =>
      rw [blockFrames_text] at hf
      rcases List.mem_cons.mp hf with h1 | h1
      · subst h1; exact ⟨rfl, rfl⟩
      · rcases List.mem_append.mp h1 with h2 | h2
        · obtain ⟨s, _, hs⟩ := List.mem_map.mp h2
          subst hs; exact ⟨rfl, rfl⟩
        · rw [List.mem_singleton] at h2
          subst h2; exact ⟨rfl, rfl⟩
  | toolBlock tb n =>
      rw [blockFrames_tool] at hf
      rcases List.mem_cons.mp hf with h1 | h1
      · subst h1; exact ⟨rfl, rfl⟩
      · rw [List.mem_singleton] at h1
        subst h1; exact ⟨rfl, rfl⟩

/-- The reader traverses non-error, non-terminal frames by folding its
step function. -/
theorem clientRun_append_plain (fs1 fs2 : List Frame) (st : ClientState)
    (h : ∀ f ∈ fs1, frameErrorTruthy f = false ∧ frameTerminal f = false) :
    clientRun st (fs1 ++ fs2) = clientRun (fs1.foldl clientStep st) fs2 := by
  induction fs1 generalizing st with
  | nil => simp
  | cons f fs ih =>
      have hf := h f (List.mem_cons_self f fs)
      rw [List.cons_append, clientRun, hf.1, hf.2]
      simp only [Bool.false_eq_true, if_false]
      exact ih _ (fun g hg => h g (List.mem_cons_of_mem f hg))

/-- Folding the reader over the `text` frames of one block accumulates
the concatenated deltas. -/
theorem client_foldl_texts (ds : List String) (i : Nat) :
    ∀ st : ClientState,
      List.foldl clientStep st (ds.map (fun s => textFrame s i))
        = { st with currentTextContent := st.currentTextContent ++ joinAll ds,
                    fullContent := st.fullContent ++ joinAll ds } := by
  induction ds with
  | nil => intro st; simp [joinAll]
  | cons s ds ih =>
      intro st
      rw [List.map_cons, List.foldl_cons, clientStep_text, ih]
      simp [joinAll, String.append_assoc]

theorem flatten_frames_of_events (L : List (List StreamEvent)) :
    ((L.flatten).map streamEventFrames).flatten
      = (L.map (fun es => (es.map streamEventFrames).flatten)).flatten := by
  induction L with
  | nil => rfl
  | cons es L ih =>
      rw [List.flatten_cons, List.map_append, List.flatten_append, ih, List.map_cons,
        List.flatten_cons]

/-- The frames of a valid turn: the session frame, each block's frames
in order, then the result frame. -/
theorem chatFrames_turn (sid : String) (blocks : List BlockDesc) (r : ResultMsg) :
    chatFrames (turnEvents sid blocks r)
      = sessFrames sid ++
          ((blocks.enum.map (fun p => blockFrames p.1 p.2)).flatten ++ [resultFrame r]) := by
  have hstep : ∀ st : ChatState,
      chatRun st ((((blocks.enum.map (fun p => seqOfBlock p.1 p.2)).flatten).map mkStreamMsg)
          ++ [{ sessionId := none, body := SdkBody.result r }])
        = (blocks.enum.map (fun p => blockFrames p.1 p.2)).flatten ++ [resultFrame r] := by
    intro st
    rw [chatRun_stream_append, chatRun_cons_result, flatten_frames_of_events]
    congr 1
    rw [List.map_map]
    rfl
  rw [chatFrames, turnEvents]
  by_cases hs : sid = ""
  · rw [show chatRun chatState0
        ({ sessionId := some sid, body := SdkBody.otherMsg } ::
          ((((blocks.enum.map (fun p => seqOfBlock p.1 p.2)).flatten).map mkStreamMsg)
            ++ [{ sessionId := none, body := SdkBody.result r }]))
        = chatRun chatState0
            ((((blocks.enum.map (fun p => seqOfBlock p.1 p.2)).flatten).map mkStreamMsg)
              ++ [{ sessionId := none, body := SdkBody.result r }]) from by
      simp [chatRun, chatStep, sessionCapture, hs]]
    rw [hstep]
    simp [sessFrames, hs]
  · rw [show chatRun chatState0
        ({ sessionId := some sid, body := SdkBody.otherMsg } ::
          ((((blocks.enum.map (fun p => seqOfBlock p.1 p.2)).flatten).map mkStreamMsg)
            ++ [{ sessionId := none, body := SdkBody.result r }]))
        = sessionIdFrame sid ::
            chatRun { chatState0 with currentSessionId := some sid }
              ((((blocks.enum.map (fun p => seqOfBlock p.1 p.2)).flatten).map mkStreamMsg)
                ++ [{ sessionId := none, body := SdkBody.result r }]) from by
      simp [chatRun, chatStep, sessionCapture, hs, chatState0]]
    rw [hstep]
    simp [sessFrames, hs]

/-- Folding the reader over one block's frames, starting with an empty
text accumulator: the accumulator is empty again and the block's
content block (if any) is appended. -/
theorem client_foldl_block (i : Nat) (b : BlockDesc) (st : ClientState)
    (h : st.currentTextContent = "") :
    (List.foldl clientStep st (blockFrames i b)).currentTextContent = ""
  ∧ (List.foldl clientStep st (blockFrames i b)).contentBlocks
      = st.contentBlocks ++ (liveCBOf b).toList := by
  cases b with
  | textBlock ds =>
      rw [blockFrames_text, List.foldl_cons, clientStep_textStart, List.foldl_append,
        client_foldl_texts, List.foldl_cons, List.foldl_nil, clientStep_textEnd]
      by_cases hj : joinAll ds = ""
      · simp [liveCBOf, hj]
      · simp [liveCBOf, hj]
  | toolBlock tb n =>
      rw [blockFrames_tool, List.foldl_cons, List.foldl_cons, List.foldl_nil,
        clientStep_tool st tb.name tb.id i h, clientStep_textEnd]
      simp [liveCBOf, h]

/-- Folding the reader over the frames of a list of blocks appends each
block's content block in order. -/
theorem client_foldl_blockList (bs : List (Nat × BlockDesc)) :
    ∀ st : ClientState, st.currentTextContent = "" →
      (List.foldl clientStep st
          ((bs.map (fun p => blockFrames p.1 p.2)).flatten)).currentTextContent = ""
    ∧ (List.foldl clientStep st
          ((bs.map (fun p => blockFrames p.1 p.2)).flatten)).contentBlocks
        = st.contentBlocks ++ bs.filterMap (fun p => liveCBOf p.2) := by
  induction bs with
  | nil => intro st h; exact ⟨h, by simp⟩
  | cons p bs ih =>
      intro st h
      rw [List.map_cons, List.flatten_cons, List.foldl_append]
      have hb := client_foldl_block p.1 p.2 st h
      have hr := ih _ hb.1
      refine ⟨hr.1, ?_⟩
      rw [hr.2, hb.2, List.filterMap_cons]
      cases hcb : liveCBOf p.2 <;> simp [hcb]

theorem enumFrom_filterMap_snd {α β : Type} (l : List α) (g : α → Option β) :
    ∀ n : Nat, (List.enumFrom n l).filterMap (fun p => g p.2) = l.filterMap g := by
  induction l with
  | nil => intro n; rfl
  | cons x l ih =>
      intro n
      rw [List.enumFrom, List.filterMap_cons, List.filterMap_cons]
      cases g x <;> simp [ih]

/-- The transcript the client reader accumulates for a valid turn: one
content block per upstream block, in order - text blocks with their
concatenated deltas (dropped when empty), tool blocks with name and id
only. -/
theorem liveTranscript_turn (sid : String) (blocks : List BlockDesc) (r : ResultMsg) :
    liveTranscript (turnEvents sid blocks r) = blocks.filterMap liveCBOf := by
  have hplainSess : ∀ f ∈ sessFrames sid,
      frameErrorTruthy f = false ∧ frameTerminal f = false := by
    intro f hf
    rw [sessFrames] at hf
    by_cases hs : sid = ""
    · simp [hs] at hf
    · rw [if_pos hs, List.mem_singleton] at hf
      subst hf
      exact ⟨rfl, rfl⟩
  have hplainBlocks : ∀ f ∈ (blocks.enum.map (fun p => blockFrames p.1 p.2)).flatten,
      frameErrorTruthy f = false ∧ frameTerminal f = false := by
    intro f hf
    simp only [List.mem_flatten, List.mem_map] at hf
    obtain ⟨l, ⟨p, _, hpl⟩, hfl⟩ := hf
    subst hpl
    exact blockFrames_plain p.1 p.2 f hfl
  have hsessFold : List.foldl clientStep clientState0 (sessFrames sid) = clientState0 := by
    rw [sessFrames]
    by_cases hs : sid = ""
    · simp [hs]
    · simp [hs, clientStep_session]
  rw [liveTranscript, chatFrames_turn,
    clientRun_append_plain (sessFrames sid) _ _ hplainSess, hsessFold,
    clientRun_append_plain _ _ _ hplainBlocks]
  rw [show ∀ st : ClientState, clientRun st [resultFrame r] = st from fun st => by
    rw [clientRun, frameErrorTruthy_result]
    simp only [Bool.false_eq_true, if_false, clientStep_result, frameTerminal_result, if_true]]
  have hfold := client_foldl_blockList blocks.enum clientState0 rfl
  rw [hfold.2]
  rw [show (List.enum blocks) = List.enumFrom 0 blocks from rfl,
    enumFrom_filterMap_snd blocks liveCBOf 0]
  rfl

/-- The reconstructed transcript of the persisted log of a turn: the
content blocks of the assistant record, in content-array order. -/
theorem histTranscript_persisted (sid : String) (ts : Nat) (u1 u2 ut : String)
    (blocks : List BlockDesc) :
    histTranscriptOf (persistedLog sid ts u1 u2 ut blocks)
      = (blocks.map persistBlock).filterMap blockToHistCB := by
  rw [histTranscriptOf, readJsonl_messages, persistedLog]
  by_cases hl : 0 < (List.filterMap (blockToHistCB ∘ persistBlock) blocks).length
  · simp [lineMessage, entryToMessage, contentTextOf, hl]
  · have hnil : List.filterMap (blockToHistCB ∘ persistBlock) blocks = [] :=
      List.length_eq_zero.mp (by omega)
    simp [lineMessage, entryToMessage, contentTextOf, hl, hnil]

/-! ## Tool-sealing facts for the sequencing claim -/

theorem isToolOpenAt_session (i : Nat) (sid : String) :
    isToolOpenAt i (sessionIdFrame sid) = false := rfl

theorem isToolOpenAt_start (i j : Nat) : isToolOpenAt i (textBlockStartFrame j) = false := rfl

theorem isToolOpenAt_text (i j : Nat) (s : String) : isToolOpenAt i (textFrame s j) = false := rfl

theorem isToolOpenAt_end (i j : Nat) : isToolOpenAt i (textBlockEndFrame j) = false := rfl

theorem isToolOpenAt_result (i : Nat) (r : ResultMsg) :
    isToolOpenAt i (resultFrame r) = false := rfl

theorem isCloseAt_result (i : Nat) (r : ResultMsg) : isCloseAt i (resultFrame r) = false := rfl

theorem isToolOpenAt_tool_self (i : Nat) (nm id : String) :
    isToolOpenAt i (toolUseFrame nm id i) = true := by
  simp only [isToolOpenAt, decide_eq_true_eq]
  exact ⟨rfl, rfl⟩

theorem isCloseAt_end_self (i : Nat) : isCloseAt i (textBlockEndFrame i) = true := by
  simp only [isCloseAt, decide_eq_true_eq]
  exact ⟨rfl, rfl⟩

/-- Frames of slot `j` are not opens, closes or appends of slot `i ≠ j`. -/
theorem not_at_of_idx {i j : Nat} (hne : j ≠ i) {f : Frame}
    (hidx : f.lookup "blockIndex" = some (.nat j)) :
    isToolOpenAt i f = false ∧ isCloseAt i f = false ∧ isAppendAt i f = false := by
  refine ⟨?_, ?_, ?_⟩ <;> simp [isToolOpenAt, isCloseAt, isAppendAt, hidx, hne]

/-- All frames of one block carry that block's slot index. -/
theorem blockFrames_idx (j : Nat) (b : BlockDesc) :
    ∀ f ∈ blockFrames j b, f.lookup "blockIndex" = some (.nat j) := by
  intro f hf
  cases b with
  | textBlock ds =>
      rw [blockFrames_text] at hf
      rcases List.mem_cons.mp hf with h1 | h1
      · subst h1; rfl
      · rcases List.mem_append.mp h1 with h2 | h2
        · obtain ⟨s, _, hs⟩ := List.mem_map.mp h2
          subst hs; rfl
        · rw [List.mem_singleton] at h2
          subst h2; rfl
  | toolBlock tb n =>
      rw [blockFrames_tool] at hf
      rcases List.mem_cons.mp hf with h1 | h1
      · subst h1; rfl
      · rw [List.mem_singleton] at h1
        subst h1; rfl

theorem enumFrom_fst_ge {α : Type} (l : List α) :
    ∀ (n : Nat) (p : Nat × α), p ∈ List.enumFrom n l → n ≤ p.1 := by
  induction l with
  | nil => intro n p h; simp at h
  | cons x l ih =>
      intro n p h
      rw [List.enumFrom] at h
      rcases List.mem_cons.mp h with h1 | h1
      · subst h1; exact Nat.le_refl n
      · exact Nat.le_of_succ_le (ih (n + 1) p h1)

/-- Frames of the blocks enumerated from `k > i` never touch slot `i`. -/
theorem slots_ge (i k : Nat) (hik : i < k) (bs : List BlockDesc) :
    ∀ f ∈ ((List.enumFrom k bs).map (fun p => blockFrames p.1 p.2)).flatten,
      isToolOpenAt i f = false ∧ isCloseAt i f = false ∧ isAppendAt i f = false := by
  intro f hf
  simp only [List.mem_flatten, List.mem_map] at hf
  obtain ⟨l, ⟨p, hp, hpl⟩, hfl⟩ := hf
  subst hpl
  have hge : k ≤ p.1 := enumFrom_fst_ge bs k p hp
  have hne : p.1 ≠ i := by omega
  exact not_at_of_idx hne (blockFrames_idx p.1 p.2 f hfl)

theorem sealedAt_append_no_open (i : Nat) (A B : List Frame)
    (hA : ∀ f ∈ A, isToolOpenAt i f = false) :
    sealedAt i (A ++ B) = sealedAt i B := by
  induction A with
  | nil => rfl
  | cons f A ih =>
      rw [List.cons_append, sealedAt, hA f (List.mem_cons_self f A)]
      simp only [Bool.not_false, Bool.true_or, Bool.true_and]
      exact ih (fun g hg => hA g (List.mem_cons_of_mem f hg))

theorem sealedAt_of_no_open (i : Nat) (A : List Frame)
    (hA : ∀ f ∈ A, isToolOpenAt i f = false) : sealedAt i A = true := by
  have := sealedAt_append_no_open i A [] hA
  rwa [List.append_nil] at this

/-- Sealing holds for the frames of the enumerated blocks followed by
the result frame, at every slot index. -/
theorem sealedAt_blockList (i : Nat) (r : ResultMsg) (blocks : List BlockDesc) :
    ∀ k, sealedAt i
        (((List.enumFrom k blocks).map (fun p => blockFrames p.1 p.2)).flatten
          ++ [resultFrame r]) = true := by
  induction blocks with
  | nil =>
      intro k
      rw [List.enumFrom, List.map_nil, List.flatten_nil, List.nil_append, sealedAt,
        isToolOpenAt_result]
      rfl
  | cons b bs ih =>
      intro k
      rw [List.enumFrom, List.map_cons, List.flatten_cons, List.append_assoc]
      cases b with
      | textBlock ds =>
          rw [sealedAt_append_no_open i _ _ ?hno]
          case hno =>
            intro f hf
            rw [blockFrames_text] at hf
            rcases List.mem_cons.mp hf with h1 | h1
            · subst h1; exact isToolOpenAt_start i k
            · rcases List.mem_append.mp h1 with h2 | h2
              · obtain ⟨s, _, hs⟩ := List.mem_map.mp h2
                subst hs; exact isToolOpenAt_text i k s
              · rw [List.mem_singleton] at h2
                subst h2; exact isToolOpenAt_end i k
          exact ih (k + 1)
      | toolBlock tb n =>
          rw [blockFrames_tool]
          by_cases hik : k = i
          · subst hik
            have hrest := slots_ge k (k + 1) (Nat.lt_succ_self k) bs
            have hz : (((List.enumFrom (k + 1) bs).map
                (fun p => blockFrames p.1 p.2)).flatten
                  ++ [resultFrame r]).countP (isCloseAt k) = 0 := by
              rw [List.countP_eq_zero]
              intro a ha
              rcases List.mem_append.mp ha with h1 | h1
              · simp [(hrest a h1).2.1]
              · rw [List.mem_singleton] at h1
                subst h1
                simp [isCloseAt_result]
            have hseal : sealedAt k
                (((List.enumFrom (k + 1) bs).map (fun p => blockFrames p.1 p.2)).flatten
                  ++ [resultFrame r]) = true := by
              apply sealedAt_of_no_open
              intro f hf
              rcases List.mem_append.mp hf with h1 | h1
              · exact (hrest f h1).1
              · rw [List.mem_singleton] at h1
                subst h1
                exact isToolOpenAt_result k r
            rw [List.cons_append, List.cons_append, List.nil_append, sealedAt,
              isToolOpenAt_tool_self, sealedAt, isToolOpenAt_end]
            rw [List.countP_cons, List.takeWhile_cons, isCloseAt_end_self, hz, hseal]
            rfl
          · rw [sealedAt_append_no_open i _ _ ?hno2]
            case hno2 =>
              intro f hf
              rcases List.mem_cons.mp hf with h1 | h1
              · subst h1
                exact (not_at_of_idx hik (blockFrames_idx k (.toolBlock tb n) _
                  (by rw [blockFrames_tool]; exact List.mem_cons_self _ _))).1
              · rw [List.mem_singleton] at h1
                subst h1
                exact isToolOpenAt_end i k
            exact ih (k + 1)

/-! ## Claim theorems -/

/-- C1 counterexample: for the valid single-tool turn, the live client
transcript holds `{type:'tool', tool:'Read', toolUseId:'tid'}` while the
reconstruction of the persisted log holds `{type:'tool', tool:'Read',
toolUseId:'tid', input:'pathA'}` - the tool segments do not agree
field-for-field, because the streamed tool frame never carries the
input. -/
theorem c1_counterexample :
    (liveTranscript (turnEvents "sess1" blocks1 r0)).map cbFields
      ≠ (histTranscriptOf log1).map histCBFields
  ∧ liveTranscript (turnEvents "sess1" blocks1 r0) = [.toolCB "Read" "tid"]
  ∧ histTranscriptOf log1 = [.toolCB "Read" "tid" "pathA"] := by decide

/-- C1 (amended): for every valid upstream turn whose text blocks have
nonempty accumulated content, the live transcript equals the
historically reconstructed transcript of the turn's persisted log once
the `input` field of reconstructed tool segments is dropped: text
segments agree byte-for-byte and tool segments agree on name and
toolUseId (the live path carries no tool input). -/
theorem c1_amended (sid : String) (blocks : List BlockDesc) (r : ResultMsg)
    (ts : Nat) (u1 u2 ut : String)
    (h : ∀ b ∈ blocks, blockTextOk b = true) :
    liveTranscript (turnEvents sid blocks r)
      = (histTranscriptOf (persistedLog sid ts u1 u2 ut blocks)).map forgetInput := by
  rw [liveTranscript_turn, histTranscript_persisted]
  induction blocks with
  | nil => rfl
  | cons b bs ih =>
      have hb := h b (List.mem_cons_self b bs)
      have hrest := ih (fun x hx => h x (List.mem_cons_of_mem b hx))
      cases b with
      | textBlock ds =>
          rw [blockTextOk] at hb
          have hj : joinAll ds ≠ "" := by simpa using hb
          rw [List.filterMap_cons, List.map_cons, List.filterMap_cons]
          simp only [liveCBOf, persistBlock, blockToHistCB, if_pos hj, List.map_cons,
            forgetInput, hrest]
      | toolBlock tb n =>
          rw [List.filterMap_cons, List.map_cons, List.filterMap_cons]
          simp only [liveCBOf, persistBlock, blockToHistCB, List.map_cons, forgetInput, hrest]

/-- C1 witness: the amended equality at a concrete two-block turn. -/
theorem c1_witness :
    (∀ b ∈ blocksW, blockTextOk b = true)
  ∧ liveTranscript (turnEvents "sess1" blocksW r0)
      = (histTranscriptOf (persistedLog "sess1" 10 "u1" "u2" "hi" blocksW)).map forgetInput :=
  ⟨by decide, c1_amended "sess1" blocksW r0 10 "u1" "u2" "hi" (by decide)⟩

/-- C2 counterexample: for the sequence consisting of a single text
delta for slot 0 with no preceding `content_block_start`, the handler
forwards the fragment as a `text` frame exactly as if the slot were
open, and emits no forced segment-closed frame - there is no
`ProtocolViolation` handling. -/
theorem c2_counterexample :
    chatFrames es2cex = [textFrame "x" 0]
  ∧ textFrame "x" 0 ∈ chatFrames es2cex
  ∧ textBlockEndFrame 0 ∉ chatFrames es2cex := by decide

/-- C2 (amended): a text delta for a slot with no preceding open is
forwarded unchanged as a `text` frame (the handler keeps no per-slot
open state and performs no rejection), and processing continues with the
remaining events without crashing. -/
theorem c2_amended (st : ChatState) (i : Nat) (s : String) (rest : List SdkMsg) :
    chatRun st (mkStreamMsg (.contentBlockDelta i (.textDelta s)) :: rest)
      = textFrame s i ::
          chatRun { st with currentTextBlock := st.currentTextBlock ++ s,
                            fullResponse := st.fullResponse ++ s } rest := by
  rw [chatRun_cons_stream]
  rfl

/-- C3 counterexample: for the truncated sequence `open(0,text),
delta(0,"partial")` with no close and no result, the handler emits
exactly the two non-terminal frames and synthesizes no terminal
(`StreamTruncated` or otherwise) frame: no emitted frame carries
`done:true`. -/
theorem c3_counterexample :
    chatFrames es3cex = [textBlockStartFrame 0, textFrame "partial" 0]
  ∧ (chatFrames es3cex).countP isTerminalFrame = 0 := by decide

/-- C3 (amended): when the upstream sequence ends without a terminal
result event, the handler simply ends the response: every frame it
emitted carries `done:false` (no terminal frame of any kind is
synthesized), while the frames emitted before the drop are retained -
the output for the truncated sequence is a prefix of the output for any
continuation of it. -/
theorem c3_amended (ms : List SdkMsg) (h : ∀ m ∈ ms, isResultMsg m = false) :
    (∀ f ∈ chatFrames ms, isTerminalFrame f = false)
  ∧ (∀ ms2, chatFrames ms <+: chatFrames (ms ++ ms2)) := by
  constructor
  · exact fun f hf => isTerminalFrame_eq_false (chatRun_no_result ms h chatState0 f hf)
  · intro ms2
    have := chatRun_take_front (ms ++ ms2) ms.length chatState0
    rwa [List.take_left] at this

/-- C3 witness: the amended statement at the truncated scenario
sequence. -/
theorem c3_witness :
    (∀ f ∈ chatFrames es3cex, isTerminalFrame f = false)
  ∧ chatFrames es3cex <+: chatFrames (es3cex ++ [mkStreamMsg (.contentBlockStop 0)]) :=
  ⟨(c3_amended es3cex (by decide)).1, (c3_amended es3cex (by decide)).2 _⟩

/-- C4 counterexample: for a `tool_use` content-block-start, the emitted
frame is exactly the five-field `tool_use` frame; although the upstream
payload's `input` is `"pathA"`, the frame has no `input` field at all,
so the input is not carried to the client. -/
theorem c4_counterexample :
    chatFrames es4cex = [toolUseFrame "Read" "tid" 0]
  ∧ tb0.input = "pathA"
  ∧ (toolUseFrame "Read" "tid" 0).lookup "input" = none := by decide

/-- C4 (amended): the frame emitted for a `tool_use` content-block-start
(on both the stream path and the message path) carries the tool name and
the `toolUseId` verbatim, plus the block index and `done:false`, but not
the tool `input`, which is absent from the frame. -/
theorem c4_amended (tb : ToolBlock) (i : Nat) :
    streamEventFrames (.contentBlockStart i (.toolUse tb)) = [toolUseFrame tb.name tb.id i]
  ∧ msgBlockFrames i (.toolB tb) = [toolUseFrame tb.name tb.id i]
  ∧ (toolUseFrame tb.name tb.id i).lookup "tool" = some (.str tb.name)
  ∧ (toolUseFrame tb.name tb.id i).lookup "toolUseId" = some (.str tb.id)
  ∧ (toolUseFrame tb.name tb.id i).lookup "input" = none :=
  ⟨rfl, rfl, rfl, rfl, rfl⟩

/-- C5: in every stream the `/api/chat` handler produces, each frame
other than the last carries `done:false`; a `result`-typed frame (the
terminal frame, when one is sent) carries `done:true` - hence no frame
is ever written after a `done:true` frame; the catch-clause `error`
frame also carries `done:true`. -/
theorem c5_done_flag_discipline (es : List SdkMsg) :
    (∀ f ∈ (chatFrames es).dropLast, f.lookup "done" = some (.bool false))
  ∧ (∀ f ∈ chatFrames es, f.lookup "type" = some (.str "result") →
        f.lookup "done" = some (.bool true))
  ∧ (∀ s, (errorFrame s).lookup "done" = some (.bool true)) := by
  refine ⟨?_, ?_, fun s => rfl⟩
  · rcases chatRun_shape es chatState0 with hl | ⟨fs, r, heq, hfs⟩
    · intro f hf
      exact (hl f ((List.dropLast_sublist _).subset hf)).1
    · intro f hf
      rw [chatFrames, heq, List.dropLast_concat] at hf
      exact (hfs f hf).1
  · rcases chatRun_shape es chatState0 with hl | ⟨fs, r, heq, hfs⟩
    · intro f hf htype
      exact absurd htype (hl f hf).2
    · intro f hf htype
      rw [chatFrames, heq, List.mem_append] at hf
      rcases hf with hf | hf
      · exact absurd htype (hfs f hf).2
      · rw [List.mem_singleton] at hf
        subst hf
        exact resultFrame_done r

/-- C5 witness: the first frame of the full scenario turn carries
`done:false` and its `result` frame carries `done:true`. -/
theorem c5_witness :
    (sessionIdFrame "sess1").lookup "done" = some (FieldVal.bool false)
  ∧ (resultFrame r0).lookup "done" = some (FieldVal.bool true) :=
  ⟨(c5_done_flag_discipline es9full).1 _ (by decide),
   (c5_done_flag_discipline es9full).2.1 _ (by decide) (by decide)⟩

/-- C6 counterexample: for the upstream sequence `tool_use open(0),
text_delta(0,"x"), stop(0)`, the handler emits a `text` (segment-
appended) frame for slot 0 between the tool frame and its closing frame,
so the claimed sealing property fails on that output. -/
theorem c6_counterexample :
    sealedAt 0 (chatFrames es6cex) = false
  ∧ chatFrames es6cex
      = [toolUseFrame "Read" "tid" 0, textFrame "x" 0, textBlockEndFrame 0] := by decide

/-- C6 (amended): for every valid upstream turn (each block opens once
at its slot, streams only deltas of its own kind, and closes once), each
`tool_use` frame at slot `i` in the handler's output is followed by
exactly one segment-closed frame for slot `i` with no intervening
segment-appended frame for slot `i`. -/
theorem c6_amended (sid : String) (blocks : List BlockDesc) (r : ResultMsg) (i : Nat) :
    sealedAt i (chatFrames (turnEvents sid blocks r)) = true := by
  rw [chatFrames_turn, sealedAt_append_no_open i (sessFrames sid) _ ?hs]
  case hs =>
    intro f hf
    rw [sessFrames] at hf
    by_cases h0 : sid = ""
    · simp [h0] at hf
    · rw [if_pos h0, List.mem_singleton] at hf
      subst hf
      exact isToolOpenAt_session i sid
  have hb := sealedAt_blockList i r blocks 0
  rwa [show List.enum blocks = List.enumFrom 0 blocks from rfl]

/-- C7: a non-first log line that is unparsable JSON (or parses to a
record of unrecognized shape) is skipped individually: the reconstructed
messages and the captured first entry are the same as for the file
without that line - the file is never rejected wholesale. -/
theorem c7_bad_line_skipped (pre post : List Line) (x : Line) (h1 : pre ≠ [])
    (h2 : x = Line.malformed ∨ ∃ e, x = Line.parsed e ∧ entryToMessage e = none) :
    (readJsonlFile (pre ++ x :: post)).messages = (readJsonlFile (pre ++ post)).messages
  ∧ (readJsonlFile (pre ++ x :: post)).firstEntry
      = (readJsonlFile (pre ++ post)).firstEntry := by
  have hx : lineMessage x = none := by
    rcases h2 with h | ⟨e, he, hm⟩
    · subst h; rfl
    · subst he; exact hm
  constructor
  · rw [readJsonl_messages, readJsonl_messages, List.filterMap_append, List.filterMap_append]
    simp [hx]
  · rw [readJsonl_firstEntry, readJsonl_firstEntry]
    cases pre with
    | nil => exact absurd rfl h1
    | cons p pre2 => rfl

/-- C7 witness: the spec scenario - first line a user record, second
line unparsable, third line a valid assistant text record. -/
theorem c7_witness :
    (readJsonlFile ([Line.parsed logEntryU] ++ Line.malformed :: [Line.parsed logEntryA])).messages
      = (readJsonlFile ([Line.parsed logEntryU] ++ [Line.parsed logEntryA])).messages
  ∧ (readJsonlFile ([Line.parsed logEntryU] ++ Line.malformed :: [Line.parsed logEntryA])).firstEntry
      = (readJsonlFile ([Line.parsed logEntryU] ++ [Line.parsed logEntryA])).firstEntry :=
  c7_bad_line_skipped [Line.parsed logEntryU] [Line.parsed logEntryA] Line.malformed
    (by decide) (Or.inl rfl)

/-- C9 counterexample: cancelling the scenario turn between
`delta(0,"a")` and `delta(0,"b")` leaves the client with exactly the
three frames of the consumed prefix - the server (which installs no
cancellation handler) sends no `Cancelled` outcome and no terminating
frame: zero frames carry `done:true`, not exactly one. -/
theorem c9_counterexample :
    chatFrames (es9full.take 3)
      = [sessionIdFrame "sess1", textBlockStartFrame 0, textFrame "a" 0]
  ∧ (chatFrames (es9full.take 3)).countP isTerminalFrame = 0 := by decide

/-- C9 (amended): cancellation is client-side only (the page's
`AbortController` stops reading; `server.js` has no cancellation
branch), so a client cancelling after consuming `k` upstream events
observes exactly the frames of that prefix - a prefix of the full turn's
frames, retaining every segment emitted before the cancellation point -
and, when no result was among the consumed events, none of those frames
is terminal. -/
theorem c9_amended (ms : List SdkMsg) (k : Nat)
    (h : ∀ m ∈ ms.take k, isResultMsg m = false) :
    chatFrames (ms.take k) <+: chatFrames ms
  ∧ ∀ f ∈ chatFrames (ms.take k), isTerminalFrame f = false :=
  ⟨chatRun_take_front ms k chatState0,
   fun f hf => isTerminalFrame_eq_false (chatRun_no_result _ h chatState0 f hf)⟩

/-- C9 witness: the amended statement at the scenario turn, cancelled
after three messages. -/
theorem c9_witness :
    chatFrames (es9full.take 3) <+: chatFrames es9full
  ∧ ∀ f ∈ chatFrames (es9full.take 3), isTerminalFrame f = false :=
  c9_amended es9full 3 (by decide)

/-- C10: the first line alone decides whether a file contributes a
conversation - if it is blank, unparsable, or parses to a record with a
falsy `sessionId`, the whole conversation is omitted from the listing
whatever the remaining lines hold; conversely a parsed first record with
a truthy `sessionId` makes the file contribute one. -/
theorem c10_first_line_decides (nm : String) (x : Line) (rest : List Line) :
    (firstLineExcluded x = true →
        conversationOfFile { name := nm, lines := x :: rest } = none)
  ∧ (∀ e, x = Line.parsed e → sessionFalsy e = false →
        (conversationOfFile { name := nm, lines := x :: rest }).isSome = true) := by
  have hfe := readJsonl_firstEntry (x :: rest)
  constructor
  · intro hx
    cases x with
    | blank => simp [conversationOfFile, hfe]
    | malformed => simp [conversationOfFile, hfe]
    | parsed e =>
        rw [firstLineExcluded] at hx
        cases hs : e.sessionId with
        | none => simp [conversationOfFile, hfe, hs]
        | some s =>
            rw [sessionFalsy, hs] at hx
            have hse : s = "" := by simpa using hx
            simp [conversationOfFile, hfe, hs, hse]
  · intro e hx hfalse
    subst hx
    cases hs : e.sessionId with
    | none => rw [sessionFalsy, hs] at hfalse; cases hfalse
    | some s =>
        rw [sessionFalsy, hs] at hfalse
        have hse : s ≠ "" := by simpa using hfalse
        simp [conversationOfFile, hfe, hs, hse]

/-- C8: the returned conversation list is pairwise sorted by creation
timestamp, newest first; within a conversation the reconstructed
messages are the in-order per-line contributions of the log file, and an
assistant record's content blocks are the in-order per-entry
contributions of its content array. -/
theorem c8_ordering (files : List JsonlFile) :
    List.Sorted convGE (conversationsOf files)
  ∧ (∀ f : JsonlFile, (readJsonlFile f.lines).messages = f.lines.filterMap lineMessage)
  ∧ (∀ (e : LogEntry) (bs : List LogContentBlock),
        e.type = "assistant" → e.content = .arr bs →
        ∃ m, entryToMessage e = some m
          ∧ m.contentBlocks.getD [] = bs.filterMap blockToHistCB) := by
  refine ⟨List.sorted_insertionSort convGE _, fun f => readJsonl_messages _, ?_⟩
  intro e bs htype hcontent
  simp only [entryToMessage, htype, hcontent]
  by_cases hl : (bs.filterMap blockToHistCB).length > 0
  · simp [hl]
  · have hnil : bs.filterMap blockToHistCB = [] := List.length_eq_zero.mp (by omega)
    simp [hl, hnil]

/-- C8 witness: the ordering statements at a concrete two-file listing
and at the concrete assistant record. -/
theorem c8_witness :
    List.Sorted convGE (conversationsOf
      [{ name := "f1", lines := [Line.parsed logEntryU] },
       { name := "f2", lines := [Line.parsed logEntryA] }])
  ∧ (readJsonlFile [Line.parsed logEntryU, Line.parsed logEntryA]).messages
      = [Line.parsed logEntryU, Line.parsed logEntryA].filterMap lineMessage
  ∧ ∃ m, entryToMessage logEntryA = some m
      ∧ m.contentBlocks.getD [] = [LogContentBlock.textEntry "t"].filterMap blockToHistCB :=
  ⟨(c8_ordering _).1,
   (c8_ordering []).2.1 { name := "w", lines := [Line.parsed logEntryU, Line.parsed logEntryA] },
   (c8_ordering []).2.2 logEntryA [LogContentBlock.textEntry "t"] rfl rfl⟩

/-- C10 witness: a file whose first line is unparsable contributes no
conversation even though its second line is a valid record; a file whose
first record carries a session id contributes one. -/
theorem c10_witness :
    conversationOfFile { name := "f", lines := Line.malformed :: [Line.parsed logEntryA] } = none
  ∧ (conversationOfFile { name := "g", lines := [Line.parsed logEntryU] }).isSome = true :=
  ⟨(c10_first_line_decides "f" Line.malformed [Line.parsed logEntryA]).1 (by decide),
   (c10_first_line_decides "g" (Line.parsed logEntryU) []).2 logEntryU rfl (by decide)⟩

end ClaudeUI
